import Mathlib

/-!
Verification of the Tesla BLE dashboard client core: a shallow embedding of
the metadata serializer, HMAC verification, BLE transport reassembly and the
session facade (handshake, encrypted command send, encrypted response
handling), together with proofs of the specified properties.

Byte arrays (Uint8Array) are modelled as lists of naturals; external
collaborators (the noble hash/cipher library, the protobuf schema decoder,
the CSPRNG and the clock) are passed in as explicit function parameters, so
every definition here is the pure data flow of the corresponding source
function.
-/

namespace TeslaBle

/-- Byte strings as used on the wire; a Uint8Array entry is a natural below
256, which the embedding keeps as a plain natural and truncates with a mod
exactly where the source constructs a Uint8Array from a wider number. -/
abbrev Bytes := List Nat

/-! Constants from the constants module of the repository. -/

def DEFAULT_MAX_MESSAGE_SIZE : Nat := 1024

def DEFAULT_RX_TIMEOUT_MS : Int := 1000

def HEADER_SIZE : Nat := 2

def DEFAULT_TTL_SECONDS : Int := 10

def DOMAIN_INFOTAINMENT : Nat := 3

def SIGNATURE_TYPE_AES_GCM_PERSONALIZED : Nat := 5

def SIGNATURE_TYPE_HMAC : Nat := 6

def SIGNATURE_TYPE_AES_GCM_RESPONSE : Nat := 9

def TAG_SIGNATURE_TYPE : Nat := 0

def TAG_DOMAIN : Nat := 1

def TAG_PERSONALIZATION : Nat := 2

def TAG_EPOCH : Nat := 3

def TAG_EXPIRES_AT : Nat := 4

def TAG_COUNTER : Nat := 5

def TAG_CHALLENGE : Nat := 6

def TAG_FLAGS : Nat := 7

def TAG_REQUEST_HASH : Nat := 8

def TAG_FAULT : Nat := 9

def TAG_END : Nat := 0xff

def DEFAULT_REQUEST_FLAGS : Nat := 2

def GCM_TAG_SIZE : Nat := 16

/-! The metadata serializer (serializeMetadata and uint32ToBytes in the
session module). -/

/-- One entry of the item list passed to serializeMetadata: a tag and an
optional value (the source type is tag: number, value?: Uint8Array | null;
a null or undefined value is "none", a present but possibly empty byte
array is "some"). -/
structure MetaItem where
  tag : Nat
  value : Option Bytes
deriving Repr, DecidableEq

/-- The loop guard of serializeMetadata: "tag < lastTag" where lastTag
starts at -1 (modelled as "none", which no natural tag is below). -/
def tagBelowLast (last : Option Nat) (tag : Nat) : Bool :=
  match last with
  | none => false
  | some l => tag < l

/-- The body of serializeMetadata as a recursion over the item list,
threading the lastTag register. Each present value of length at most 255
contributes tag byte, length byte, value bytes; the terminator 0xFF is
appended after the loop. Errors mirror the two throw sites of the source. -/
def serializeMetadataGo (last : Option Nat) : List MetaItem → Except String Bytes
  | [] => Except.ok [TAG_END]
  | it :: rest =>
    if tagBelowLast last it.tag then
      Except.error "Metadata tags must be appended in ascending order"
    else
      match it.value with
      | none => serializeMetadataGo (some it.tag) rest
      | some v =>
        if 255 < v.length then
          Except.error "Metadata value too large"
        else
          match serializeMetadataGo (some it.tag) rest with
          | Except.error e => Except.error e
          | Except.ok tail => Except.ok ((it.tag % 256) :: (v.length % 256) :: (v ++ tail))

/-- serializeMetadata from the session module. -/
def serializeMetadata (items : List MetaItem) : Except String Bytes :=
  serializeMetadataGo none items

/-- uint32ToBytes from the session module: DataView.setUint32 with
big-endian byte order, after the JavaScript "value >>> 0" coercion to an
unsigned 32-bit integer. -/
def uint32ToBytes (value : Int) : Bytes :=
  let v := (value % (2 ^ 32 : Int)).toNat
  [v / 2 ^ 24 % 256, v / 2 ^ 16 % 256, v / 2 ^ 8 % 256, v % 256]

/-! Crypto primitives from the crypto module. The HMAC-SHA256, SHA-256,
SHA-1 and AES-GCM computations themselves live in the external noble
libraries and are passed in as function parameters where needed. -/

/-- timingSafeEqual from the crypto module: false on length mismatch,
otherwise the OR-accumulation of the bytewise XORs compared with zero. -/
def timingSafeEqual (a b : Bytes) : Bool :=
  if a.length ≠ b.length then false
  else (List.zipWith Nat.xor a b).foldl Nat.lor 0 == 0

/-- verifyHmacSha256 from the crypto module, parametrised by the external
HMAC-SHA256 function it calls. -/
def verifyHmacSha256 (hmacSha256 : Bytes → Bytes → Bytes)
    (keyBytes message expected : Bytes) : Bool :=
  timingSafeEqual (hmacSha256 keyBytes message) expected

/-- defaultExpiry from the crypto module. -/
def defaultExpiry (clockSeconds : Int) : Int :=
  clockSeconds + DEFAULT_TTL_SECONDS

/-! Helper lemmas about the serializer. -/

/-- The bytes one item contributes to the serialized metadata. -/
def metadataChunk (it : MetaItem) : Bytes :=
  match it.value with
  | none => []
  | some v => (it.tag % 256) :: (v.length % 256) :: v

/-- Tag-order side condition of the serializer loop, relative to the
lastTag register. -/
def chainCond : Option Nat → List Nat → Prop
  | none, l => List.Chain' (· ≤ ·) l
  | some a, l => List.Chain (· ≤ ·) a l

/-- Size side condition of the serializer loop. -/
def valuesFit (items : List MetaItem) : Prop :=
  ∀ it ∈ items, ∀ v, it.value = some v → v.length ≤ 255

theorem valuesFit_cons {it : MetaItem} {rest : List MetaItem} :
    valuesFit (it :: rest) ↔ (∀ v, it.value = some v → v.length ≤ 255) ∧ valuesFit rest := by
  constructor
  · intro h
    exact ⟨h it (List.mem_cons_self it rest), fun x hx v hv => h x (List.mem_cons_of_mem it hx) v hv⟩
  · rintro ⟨h1, h2⟩ x hx v hv
    rcases List.mem_cons.mp hx with rfl | hx
    · exact h1 v hv
    · exact h2 x hx v hv

theorem chainCond_cons {last : Option Nat} {t : Nat} {l : List Nat} :
    chainCond last (t :: l) ↔ (tagBelowLast last t = false ∧ chainCond (some t) l) := by
  cases last with
  | none =>
    simp only [chainCond, List.Chain']
    constructor
    · intro h
      exact ⟨rfl, h⟩
    · intro h
      exact h.2
  | some a =>
    simp only [chainCond, List.chain_cons, tagBelowLast, decide_eq_false_iff_not, not_lt]

theorem serializeMetadataGo_eq_ok {items : List MetaItem} :
    ∀ {last : Option Nat}, chainCond last (items.map MetaItem.tag) → valuesFit items →
      serializeMetadataGo last items = Except.ok ((items.map metadataChunk).flatten ++ [TAG_END]) := by
  induction items with
  | nil => intro last _ _; simp [serializeMetadataGo]
  | cons it rest ih =>
    intro last hchain hfit
    rw [List.map_cons] at hchain
    have hc := chainCond_cons.mp hchain
    have hf := valuesFit_cons.mp hfit
    rw [serializeMetadataGo, if_neg (by simp [hc.1])]
    cases hval : it.value with
    | none =>
      dsimp only
      rw [ih hc.2 hf.2]
      simp [metadataChunk, hval]
    | some v =>
      have hlen : ¬ 255 < v.length := by
        have := hf.1 v hval
        omega
      dsimp only
      rw [if_neg hlen, ih hc.2 hf.2]
      simp [metadataChunk, hval]

theorem serializeMetadataGo_ok_conds {items : List MetaItem} :
    ∀ {last : Option Nat} {out : Bytes}, serializeMetadataGo last items = Except.ok out →
      chainCond last (items.map MetaItem.tag) ∧ valuesFit items := by
  induction items with
  | nil =>
    intro last out _
    constructor
    · cases last <;> simp [chainCond]
    · intro it h
      simp at h
  | cons it rest ih =>
    intro last out h
    rw [serializeMetadataGo] at h
    by_cases hb : tagBelowLast last it.tag
    · rw [if_pos hb] at h
      exact absurd h (by simp)
    · rw [if_neg hb] at h
      rw [List.map_cons, chainCond_cons]
      rw [Bool.not_eq_true] at hb
      cases hval : it.value with
      | none =>
        rw [hval] at h
        dsimp only at h
        have := ih h
        exact ⟨⟨hb, this.1⟩, valuesFit_cons.mpr ⟨by simp [hval], this.2⟩⟩
      | some v =>
        rw [hval] at h
        dsimp only at h
        by_cases hlen : 255 < v.length
        · rw [if_pos hlen] at h
          exact absurd h (by simp)
        · rw [if_neg hlen] at h
          cases hrec : serializeMetadataGo (some it.tag) rest with
          | error e => rw [hrec] at h; exact absurd h (by simp)
          | ok tail =>
            have := ih hrec
            refine ⟨⟨hb, this.1⟩, valuesFit_cons.mpr ⟨?_, this.2⟩⟩
            intro w hw
            rw [hval] at hw
            cases hw
            omega

/-- Success characterization of the serializer: it produces a value exactly
when the tags are non-decreasing and every present value fits in one length
byte. -/
theorem serializeMetadata_ok_iff (items : List MetaItem) :
    (∃ out, serializeMetadata items = Except.ok out) ↔
      (List.Chain' (· ≤ ·) (items.map MetaItem.tag) ∧ valuesFit items) := by
  constructor
  · rintro ⟨out, h⟩
    exact serializeMetadataGo_ok_conds h
  · rintro ⟨h1, h2⟩
    exact ⟨_, @serializeMetadataGo_eq_ok _ none h1 h2⟩

/-! The BLE transport (TeslaBleTransport in the bluetooth module): framing,
fragment reassembly with the 1000 ms stale gap guard and the 1024-byte
oversize guard. The BLE stack itself is external; handleNotification is fed
the decoded chunk bytes and the current Date.now() value. -/

/-- The flush loop of the transport: while at least HEADER_SIZE bytes are
buffered, read the big-endian length; on an oversized length reset the
buffer and stop; on an incomplete frame stop; otherwise emit the message
and continue on the remaining buffer. Returns the final buffer and the
emitted messages in order. -/
def flush : Bytes → Bytes × List Bytes
  | b0 :: b1 :: rest0 =>
    if DEFAULT_MAX_MESSAGE_SIZE < ((b0 <<< 8) ||| b1) then ([], [])
    else if rest0.length < ((b0 <<< 8) ||| b1) then (b0 :: b1 :: rest0, [])
    else
      let result := flush (rest0.drop ((b0 <<< 8) ||| b1))
      (result.1, rest0.take ((b0 <<< 8) ||| b1) :: result.2)
  | buffer => (buffer, [])
termination_by b => b.length
decreasing_by simp; omega

/-- The mutable reassembly state of the transport: the partial buffer and
the timestamp of the previous notification. -/
structure TransportRxState where
  buffer : Bytes
  lastNotification : Int
deriving Repr, DecidableEq

/-- handleNotification from the transport: an empty chunk returns at once;
otherwise the buffer is discarded when more than DEFAULT_RX_TIMEOUT_MS has
elapsed since the previous chunk, the timestamp is updated, the chunk is
appended and the buffer flushed. Returns the new state and the messages
emitted by the flush. -/
def handleNotification (s : TransportRxState) (chunk : Bytes) (now : Int) :
    TransportRxState × List Bytes :=
  if chunk.length = 0 then (s, [])
  else
    let buffer0 := if DEFAULT_RX_TIMEOUT_MS < now - s.lastNotification then ([] : Bytes) else s.buffer
    let result := flush (buffer0 ++ chunk)
    ({ buffer := result.1, lastNotification := now }, result.2)

/-- Delivery of a sequence of notification chunks, each with its Date.now()
timestamp, collecting all emitted messages. -/
def runNotifications (s : TransportRxState) :
    List (Bytes × Int) → TransportRxState × List Bytes
  | [] => (s, [])
  | (chunk, now) :: rest =>
    let r1 := handleNotification s chunk now
    let r2 := runNotifications r1.1 rest
    (r2.1, r1.2 ++ r2.2)

/-- The frame built by the send path of the transport: a 2-byte big-endian
length header followed by the payload. -/
def frameMessage (payload : Bytes) : Bytes :=
  ((payload.length >>> 8) &&& 0xff) :: (payload.length &&& 0xff) :: payload

/-- vinToLocalName from the transport: the lowercased hex SHA-1 digest of
the VIN (computed by the external expo-crypto digest, passed here as the
digest hex characters) is cut to its first 16 characters and wrapped in
the letters S and C. -/
def vinToLocalName (digestHex : List Char) : List Char :=
  'S' :: ((digestHex.map Char.toLower).take 16 ++ ['C'])

/-! Reassembly lemmas. -/

theorem frame_header_decode {L : Nat} (h : L < 65536) :
    ((((L >>> 8) &&& 0xff) <<< 8) ||| (L &&& 0xff)) = L := by
  have hmod : ∀ x : Nat, x &&& 0xff = x % 256 := by
    intro x
    have := Nat.and_pow_two_sub_one_eq_mod x 8
    norm_num at this
    exact this
  have hdiv : L >>> 8 = L / 256 := by
    rw [Nat.shiftRight_eq_div_pow]
  have hsmall : L / 256 % 256 = L / 256 := Nat.mod_eq_of_lt (by omega)
  rw [hmod, hmod, hdiv, hsmall, Nat.shiftLeft_eq]
  norm_num
  have hlt : L % 256 < 2 ^ 8 := by
    have h2 : (2 : Nat) ^ 8 = 256 := by norm_num
    rw [h2]
    omega
  have := Nat.mul_add_lt_is_or hlt (L / 256)
  norm_num at this
  rw [Nat.mul_comm] at this
  rw [← this]
  omega

theorem flush_nil : flush [] = ([], []) := by simp [flush]

theorem flush_frame {payload : Bytes} (hL : payload.length ≤ DEFAULT_MAX_MESSAGE_SIZE) :
    flush (frameMessage payload) = ([], [payload]) := by
  have hdec : (((payload.length >>> 8) &&& 0xff) <<< 8) ||| (payload.length &&& 0xff) = payload.length :=
    frame_header_decode (by unfold DEFAULT_MAX_MESSAGE_SIZE at hL; omega)
  rw [frameMessage, flush, hdec, if_neg (by omega), if_neg (by omega)]
  simp [flush_nil]

theorem flush_incomplete {payload pre suf : Bytes} (hL : payload.length ≤ DEFAULT_MAX_MESSAGE_SIZE)
    (hcat : pre ++ suf = frameMessage payload) (hlt : pre.length < (frameMessage payload).length) :
    flush pre = (pre, []) := by
  match pre with
  | [] => exact flush_nil
  | [b] => simp [flush]
  | b0 :: b1 :: r =>
    rw [frameMessage] at hcat hlt
    simp only [List.cons_append, List.cons.injEq] at hcat
    obtain ⟨rfl, rfl, hrs⟩ := hcat
    have hrlen : r.length < payload.length := by
      simp only [List.length_cons] at hlt
      omega
    have hdec : (((payload.length >>> 8) &&& 0xff) <<< 8) ||| (payload.length &&& 0xff) = payload.length :=
      frame_header_decode (by unfold DEFAULT_MAX_MESSAGE_SIZE at hL; omega)
    rw [flush, hdec, if_neg (by omega), if_pos hrlen]

theorem handleNotification_step {s : TransportRxState} {chunk : Bytes} {now : Int}
    (hc : chunk ≠ []) (hgap : ¬ DEFAULT_RX_TIMEOUT_MS < now - s.lastNotification) :
    handleNotification s chunk now =
      (⟨(flush (s.buffer ++ chunk)).1, now⟩, (flush (s.buffer ++ chunk)).2) := by
  rw [handleNotification, if_neg (by simpa using hc)]
  dsimp only
  rw [if_neg hgap]

theorem runNotifications_frame {payload : Bytes} (hL : payload.length ≤ DEFAULT_MAX_MESSAGE_SIZE) :
    ∀ (deliveries : List (Bytes × Int)) (fed : Bytes) (t : Int),
      fed ++ (deliveries.map Prod.fst).flatten = frameMessage payload →
      fed.length < (frameMessage payload).length →
      (∀ c ∈ deliveries.map Prod.fst, c ≠ []) →
      List.Chain (fun a b => b - a ≤ DEFAULT_RX_TIMEOUT_MS) t (deliveries.map Prod.snd) →
      (runNotifications ⟨fed, t⟩ deliveries).2 = [payload] := by
  intro deliveries
  induction deliveries with
  | nil =>
    intro fed t hcat hlt _ _
    simp only [List.map_nil, List.flatten_nil, List.append_nil] at hcat
    rw [hcat] at hlt
    omega
  | cons d rest ih =>
    obtain ⟨c, tc⟩ := d
    intro fed t hcat hlt hne hchain
    rw [List.map_cons, List.chain_cons] at hchain
    obtain ⟨hgap, hchain2⟩ := hchain
    have hcne : c ≠ [] := hne c (by simp)
    rw [runNotifications]
    dsimp only
    rw [handleNotification_step hcne (by dsimp only; omega)]
    dsimp only
    cases rest with
    | nil =>
      have hfc : fed ++ c = frameMessage payload := by simpa using hcat
      rw [hfc, flush_frame hL]
      simp [runNotifications]
    | cons d2 rest2 =>
      have hsufne : (List.map Prod.fst (d2 :: rest2)).flatten ≠ [] := by
        obtain ⟨c2, tc2⟩ := d2
        have : c2 ≠ [] := hne c2 (by simp)
        simp only [List.map_cons, List.flatten_cons]
        intro hnil
        rw [List.append_eq_nil] at hnil
        exact this hnil.1
      have hcat2 : (fed ++ c) ++ (List.map Prod.fst (d2 :: rest2)).flatten = frameMessage payload := by
        rw [List.append_assoc]
        simpa using hcat
      have hlt2 : (fed ++ c).length < (frameMessage payload).length := by
        rw [← hcat2]
        simp only [List.length_append]
        have : 0 < (List.map Prod.fst (d2 :: rest2)).flatten.length := List.length_pos.mpr hsufne
        omega
      rw [flush_incomplete hL hcat2 hlt2]
      have := ih (fed ++ c) tc hcat2 hlt2 (fun x hx => hne x (by simp at hx ⊢; tauto)) hchain2
      simpa using this

/-! The session facade (TeslaBleSession in the session module). The
external crypto calls (noble HMAC-SHA256, SHA-256, AES-GCM), the protobuf
session-info decode, the CSPRNG outputs (uuid, nonce) and the clock are
parameters; the state threading mirrors the mutation of this.sessionState
and the counter. -/

/-- Derived session keys as returned by deriveSessionKeys of the crypto
module. -/
structure TeslaSessionKeys where
  sharedSecret : Bytes
  aesKeyBytes : Bytes
  sessionInfoKey : Bytes
deriving Repr, DecidableEq

/-- Decoded session info as returned by decodeSessionInfo of the protocol
module (protobuf decode with defaulted fields). -/
structure SessionInfoData where
  counter : Nat
  epoch : Bytes
  clockTime : Nat
  publicKey : Bytes
deriving Repr, DecidableEq

/-- DomainSessionState of the session module: the per-session state stored
in this.sessionState. -/
structure DomainSessionState where
  keys : TeslaSessionKeys
  counter : Nat
  epoch : Bytes
  vehiclePublicKey : Bytes
  clientPublicKey : Bytes
  timeZeroMs : Int
deriving Repr, DecidableEq

/-- The external collaborators and random inputs used by performHandshake:
the noble HMAC, the protobuf decode of the sessionInfo bytes, the key
derivation (ECDH with the fixed private key, SHA-1 truncation and the
session-info HMAC, all external), the exported client public key, the
random 16-byte uuid and Date.now(). -/
structure HandshakeEnv where
  hmacSha256 : Bytes → Bytes → Bytes
  decodeSessionInfoBytes : Bytes → SessionInfoData
  deriveKeys : Bytes → TeslaSessionKeys
  clientPublicKey : Bytes
  uuid : Bytes
  nowMs : Int

/-- The fields of the decoded handshake response read by performHandshake:
message.sessionInfo and signatureData.sessionInfoTag.tag, each absent when
the corresponding protobuf field is missing. -/
structure HandshakeMessage where
  sessionInfo : Option Bytes
  sessionInfoTag : Option Bytes
deriving Repr, DecidableEq

/-- The metadata item list built by performHandshake for the session-info
HMAC check. -/
def handshakeMetadataItems (vinBytes uuid : Bytes) : List MetaItem :=
  [⟨TAG_SIGNATURE_TYPE, some [SIGNATURE_TYPE_HMAC]⟩,
   ⟨TAG_PERSONALIZATION, some vinBytes⟩,
   ⟨TAG_CHALLENGE, some uuid⟩]

/-- performHandshake of the session module, applied to the decoded response
message, threading this.sessionState explicitly: the first component of the
result is the session state after the call, the second the raised error if
any. Every throw site leaves the incoming state untouched; the state is
assigned only after the HMAC verification succeeds. -/
def performHandshake (env : HandshakeEnv) (vinBytes : Bytes)
    (message : HandshakeMessage) (st : Option DomainSessionState) :
    Option DomainSessionState × Option String :=
  match message.sessionInfo with
  | none => (st, some "Vehicle response missing session info")
  | some sessionInfoBytes =>
    let sessionInfo := env.decodeSessionInfoBytes sessionInfoBytes
    match message.sessionInfoTag with
    | none => (st, some "Missing session info tag")
    | some tag =>
      let keys := env.deriveKeys sessionInfo.publicKey
      match serializeMetadata (handshakeMetadataItems vinBytes env.uuid) with
      | Except.error e => (st, some e)
      | Except.ok metadata =>
        if verifyHmacSha256 env.hmacSha256 keys.sessionInfoKey
            (metadata ++ sessionInfoBytes) tag then
          (some { keys := keys
                  counter := sessionInfo.counter
                  epoch := sessionInfo.epoch
                  vehiclePublicKey := sessionInfo.publicKey
                  clientPublicKey := env.clientPublicKey
                  timeZeroMs := env.nowMs - (sessionInfo.clockTime : Int) * 1000 }, none)
        else (st, some "Session info authentication failed")

/-- vehicleTimeSeconds of the session module: Math.floor of the elapsed
milliseconds over 1000 (floor division on integers). -/
def vehicleTimeSeconds (nowMs : Int) (st : Option DomainSessionState) : Int :=
  match st with
  | none => Int.fdiv nowMs 1000
  | some session => Int.fdiv (nowMs - session.timeZeroMs) 1000

/-- The guard of ensureSession in the session module: a handshake is
performed exactly when this.sessionState is unset. -/
def ensureSessionRunsHandshake (st : Option DomainSessionState) : Bool :=
  st.isNone

/-- The metadata item list built by sendEncryptedCommand: request-side AAD
input. FLAGS is appended only when this.flags is nonzero. -/
def commandMetadataItems (vinBytes : Bytes) (domain : Nat) (epoch : Bytes)
    (expires : Int) (counter : Nat) (flags : Nat) : List MetaItem :=
  [⟨TAG_SIGNATURE_TYPE, some [SIGNATURE_TYPE_AES_GCM_PERSONALIZED]⟩,
   ⟨TAG_DOMAIN, some [domain % 256]⟩,
   ⟨TAG_PERSONALIZATION, some vinBytes⟩,
   ⟨TAG_EPOCH, some epoch⟩,
   ⟨TAG_EXPIRES_AT, some (uint32ToBytes expires)⟩,
   ⟨TAG_COUNTER, some (uint32ToBytes (counter : Int))⟩]
  ++ (if flags ≠ 0 then [⟨TAG_FLAGS, some (uint32ToBytes (flags : Int))⟩] else [])

/-- External collaborators and random inputs of sendEncryptedCommand: noble
SHA-256 and AES-GCM encryption (returning ciphertext with the 16-byte tag
appended), the random 12-byte nonce and Date.now(). -/
structure CommandEnv where
  sha256 : Bytes → Bytes
  encryptAesGcm : Bytes → Bytes → Bytes → Bytes → Bytes
  nonce : Bytes
  nowMs : Int

/-- The data sendEncryptedCommand derives for one command: the counter and
expiry placed in the metadata and in AES_GCM_PersonalizedData, the
serialized metadata, the AAD, the ciphertext split from the tag, and the
request id 0x05 followed by the tag that later binds the response. -/
structure SentCommand where
  counter : Nat
  expiresAt : Int
  metadata : Bytes
  aad : Bytes
  ciphertext : Bytes
  tag : Bytes
  requestId : Bytes
deriving Repr, DecidableEq

/-- sendEncryptedCommand of the session module up to the transport write:
increments the session counter in place, builds the metadata, hashes it
into the AAD, encrypts, splits the tag and builds the request id. The
first component is this.sessionState after the call. -/
def sendEncryptedCommand (env : CommandEnv) (vinBytes : Bytes) (domain : Nat) (flags : Nat)
    (st : Option DomainSessionState) (plaintext : Bytes) :
    Option DomainSessionState × Except String SentCommand :=
  match st with
  | none => (none, Except.error "Session not established")
  | some session =>
    let counter := session.counter + 1
    let session2 := { session with counter := counter }
    let expires := defaultExpiry (vehicleTimeSeconds env.nowMs (some session2))
    match serializeMetadata (commandMetadataItems vinBytes domain session.epoch expires counter flags) with
    | Except.error e => (some session2, Except.error e)
    | Except.ok metadata =>
      let aad := env.sha256 metadata
      let encrypted := env.encryptAesGcm session.keys.aesKeyBytes env.nonce plaintext aad
      if encrypted.length < GCM_TAG_SIZE then (some session2, Except.error "Ciphertext too short")
      else
        (some session2,
         Except.ok
           { counter := counter
             expiresAt := expires
             metadata := metadata
             aad := aad
             ciphertext := encrypted.take (encrypted.length - GCM_TAG_SIZE)
             tag := encrypted.drop (encrypted.length - GCM_TAG_SIZE)
             requestId := SIGNATURE_TYPE_AES_GCM_PERSONALIZED :: encrypted.drop (encrypted.length - GCM_TAG_SIZE) })

/-- A run of consecutive getState sends on one session facade (each
getState performs exactly one sendEncryptedCommand on its session). -/
def runCommands (env : CommandEnv) (vinBytes : Bytes) (domain : Nat) (flags : Nat)
    (plaintext : Bytes) :
    Option DomainSessionState → Nat → Option DomainSessionState × List (Except String SentCommand)
  | st, 0 => (st, [])
  | st, n + 1 =>
    let r := sendEncryptedCommand env vinBytes domain flags st plaintext
    let rest := runCommands env vinBytes domain flags plaintext r.1 n
    (rest.1, r.2 :: rest.2)

/-- The fields of signatureData.AES_GCM_ResponseData read by
handleEncryptedResponse, each defaulted when absent. -/
structure ResponseSignatureData where
  nonce : Option Bytes
  counter : Option Nat
  tag : Option Bytes
deriving Repr, DecidableEq

/-- The fields of the decoded response message read by
handleEncryptedResponse. signatureData stands for the chain
message.signatureData?.AES_GCM_ResponseData; fromDestinationDomain for
message.fromDestination?.domain; signedMessageFault for
message.signedMessageStatus?.signedMessageFault. -/
structure ResponseMessage where
  signatureData : Option ResponseSignatureData
  protobufMessageAsBytes : Option Bytes
  fromDestinationDomain : Option Nat
  flags : Option Nat
  signedMessageFault : Option Nat
deriving Repr, DecidableEq

/-- External crypto used by handleEncryptedResponse: noble SHA-256 and
AES-GCM decryption (key, nonce, ciphertext with trailing tag, AAD), the
latter failing on an authentication error. -/
structure ResponseEnv where
  sha256 : Bytes → Bytes
  decryptAesGcm : Bytes → Bytes → Bytes → Bytes → Except String Bytes

/-- handleEncryptedResponse of the session module, threading
this.sessionState explicitly: builds the response metadata, hashes it into
the AAD and decrypts ciphertext plus tag. No branch assigns
this.sessionState; the incoming state is returned unchanged whether
decryption succeeds or fails. -/
def handleEncryptedResponse (env : ResponseEnv) (vinBytes : Bytes) (domain : Nat)
    (st : Option DomainSessionState) (message : ResponseMessage) (requestId : Bytes) :
    Option DomainSessionState × Except String Bytes :=
  match st with
  | none => (st, Except.error "Session not established")
  | some session =>
    match message.signatureData with
    | none => (st, Except.error "Missing AES-GCM response metadata")
    | some signatureData =>
      let counter := signatureData.counter.getD 0
      let combined := message.protobufMessageAsBytes.getD [] ++ signatureData.tag.getD []
      let flags := message.flags.getD 0
      let faultCode := message.signedMessageFault.getD 0
      match serializeMetadata
          [⟨TAG_SIGNATURE_TYPE, some [SIGNATURE_TYPE_AES_GCM_RESPONSE]⟩,
           ⟨TAG_DOMAIN, some [message.fromDestinationDomain.getD domain % 256]⟩,
           ⟨TAG_PERSONALIZATION, some vinBytes⟩,
           ⟨TAG_COUNTER, some (uint32ToBytes (counter : Int))⟩,
           ⟨TAG_FLAGS, some (uint32ToBytes (flags : Int))⟩,
           ⟨TAG_REQUEST_HASH, some requestId⟩,
           ⟨TAG_FAULT, some (uint32ToBytes (faultCode : Int))⟩] with
      | Except.error e => (st, Except.error e)
      | Except.ok metadata =>
        (st, env.decryptAesGcm session.keys.aesKeyBytes (signatureData.nonce.getD [])
               combined (env.sha256 metadata))

/-! Lemmas about timingSafeEqual. -/

theorem lor_eq_zero_iff (a b : Nat) : a ||| b = 0 ↔ a = 0 ∧ b = 0 := by
  constructor
  · intro h
    have ht : ∀ i, a.testBit i = false ∧ b.testBit i = false := by
      intro i
      have := congrArg (fun x => Nat.testBit x i) h
      simpa [Nat.testBit_lor] using this
    exact ⟨Nat.eq_of_testBit_eq fun i => by simp [(ht i).1],
           Nat.eq_of_testBit_eq fun i => by simp [(ht i).2]⟩
  · rintro ⟨rfl, rfl⟩
    rfl

theorem lor_zero_left (x : Nat) : Nat.lor 0 x = x := Nat.zero_or x

theorem xor_app_eq_zero {n m : Nat} : Nat.xor n m = 0 ↔ n = m := Nat.xor_eq_zero

theorem foldl_lor_acc (l : List Nat) : ∀ acc : Nat, l.foldl Nat.lor acc = acc ||| l.foldl Nat.lor 0 := by
  induction l with
  | nil => intro acc; simp [Nat.or_zero]
  | cons x l ih =>
    intro acc
    simp only [List.foldl_cons]
    rw [ih (Nat.lor acc x), ih (Nat.lor 0 x), lor_zero_left]
    exact Nat.lor_assoc acc x (l.foldl Nat.lor 0)

theorem zip_fold_eq_zero : ∀ (a b : Bytes), a.length = b.length →
    ((List.zipWith Nat.xor a b).foldl Nat.lor 0 = 0 ↔ a = b) := by
  intro a
  induction a with
  | nil =>
    intro b hlen
    cases b with
    | nil => simp
    | cons y ys => simp at hlen
  | cons x xs ih =>
    intro b hlen
    cases b with
    | nil => simp at hlen
    | cons y ys =>
      simp only [List.zipWith_cons_cons, List.foldl_cons]
      rw [foldl_lor_acc, lor_zero_left, lor_eq_zero_iff, xor_app_eq_zero]
      simp only [List.length_cons] at hlen
      rw [ih ys (by omega)]
      simp

theorem timingSafeEqual_eq_true_iff (a b : Bytes) : timingSafeEqual a b = true ↔ a = b := by
  rw [timingSafeEqual]
  by_cases hlen : a.length = b.length
  · rw [if_neg (by simp [hlen]), beq_iff_eq]
    exact zip_fold_eq_zero a b hlen
  · rw [if_pos hlen]
    simp only [Bool.false_eq_true, false_iff]
    intro h
    exact hlen (by rw [h])

/-! Claim theorems. -/

/-- C9: verifyHmacSha256 returns true exactly when the HMAC-SHA256 of the
message under the key equals the expected bytes byte for byte, and in
particular returns false (rather than raising) whenever the expected tag is
not exactly 32 bytes, the HMAC output length. The first conjunct needs no
assumption; the length guard uses that HMAC-SHA256 always returns 32
bytes. -/
theorem verifyHmacSha256_iff_eq (hm : Bytes → Bytes → Bytes) (k m e : Bytes)
    (hlen : (hm k m).length = 32) :
    (verifyHmacSha256 hm k m e = true ↔ hm k m = e) ∧
    (e.length ≠ 32 → verifyHmacSha256 hm k m e = false) := by
  constructor
  · exact timingSafeEqual_eq_true_iff _ _
  · intro hne
    rw [verifyHmacSha256, timingSafeEqual, if_pos (by rw [hlen]; exact fun h => hne h.symm)]

/-- C9 witness: a constant 32-byte HMAC, empty inputs and an empty expected
tag; verification reports false without an error. -/
theorem verifyHmacSha256_iff_eq_witness :
    (List.replicate 32 0).length = 32 ∧
      verifyHmacSha256 (fun _ _ => List.replicate 32 0) [] [] [] = false :=
  ⟨by simp,
   (verifyHmacSha256_iff_eq (fun _ _ => List.replicate 32 0) [] [] [] (by simp)).2 (by decide)⟩

/-- C10: an empty notification chunk leaves the transport reassembly state
(buffer and last-notification timestamp) unchanged and emits no message. -/
theorem handleNotification_empty_chunk (s : TransportRxState) (now : Int) :
    handleNotification s [] now = (s, []) := by
  simp [handleNotification]

/-- C5 (amended): the serializer fails exactly when the tags are not in
non-decreasing order or some present value exceeds 255 bytes. A repeated
tag is accepted (the source guard is a strict "tag < lastTag") and no
unsupported-tag check exists. -/
theorem serializeMetadata_error_iff (items : List MetaItem) :
    (∃ e, serializeMetadata items = Except.error e) ↔
      ¬ (List.Chain' (· ≤ ·) (items.map MetaItem.tag) ∧ valuesFit items) := by
  rw [← serializeMetadata_ok_iff]
  cases h : serializeMetadata items with
  | error e => simp [h]
  | ok out => simp [h]

/-- C5 counterexample: an item list with a repeated tag and one with a tag
outside the protocol enumeration both serialize successfully, although the
claim says both must raise an error. -/
theorem serializeMetadata_accepts_repeated_and_unknown_tags :
    serializeMetadata [⟨3, some [1]⟩, ⟨3, some [2]⟩] = Except.ok [3, 1, 1, 3, 1, 2, 0xff] ∧
    serializeMetadata [⟨42, some [7]⟩] = Except.ok [42, 1, 7, 0xff] :=
  ⟨rfl, rfl⟩

/-- C4: for items with strictly ascending byte tags and values of at most
255 bytes, the serializer emits tag byte, length byte and value bytes for
each present value in item order, terminated by 0xFF; and uint32ToBytes
encodes its value as exactly 4 bytes in big-endian order (the bytes
recombine to the value reduced modulo 2^32). -/
theorem serializeMetadata_format :
    (∀ items : List MetaItem,
      List.Chain' (· < ·) (items.map MetaItem.tag) →
      (∀ it ∈ items, it.tag ≤ 255) →
      valuesFit items →
      serializeMetadata items =
        Except.ok ((items.map (fun it =>
          match it.value with
          | none => []
          | some v => it.tag :: v.length :: v)).flatten ++ [0xff])) ∧
    (∀ value : Int,
      (uint32ToBytes value).length = 4 ∧
      (∀ b ∈ uint32ToBytes value, b < 256) ∧
      (uint32ToBytes value).foldl (fun acc b => acc * 256 + b) 0 = (value % (2 ^ 32 : Int)).toNat) := by
  constructor
  · intro items hasc htag hfit
    rw [serializeMetadata,
        @serializeMetadataGo_eq_ok _ none (hasc.imp fun _ _ h => le_of_lt h) hfit]
    have hmap : items.map metadataChunk = items.map (fun it =>
        match it.value with
        | none => []
        | some v => it.tag :: v.length :: v) := by
      apply List.map_congr_left
      intro it hit
      rw [metadataChunk]
      cases hval : it.value with
      | none => rfl
      | some v =>
        have h1 : it.tag % 256 = it.tag := Nat.mod_eq_of_lt (by have := htag it hit; omega)
        have h2 : v.length % 256 = v.length := Nat.mod_eq_of_lt (by have := hfit it hit v hval; omega)
        dsimp only
        rw [h1, h2]
    rw [hmap]
    rfl
  · intro value
    have hnn : (0 : Int) ≤ value % (2 ^ 32 : Int) := Int.emod_nonneg value (by norm_num)
    have hub : value % (2 ^ 32 : Int) < (2 ^ 32 : Int) := Int.emod_lt_of_pos value (by norm_num)
    have hvlt : (value % (2 ^ 32 : Int)).toNat < 2 ^ 32 := by omega
    refine ⟨rfl, ?_, ?_⟩
    · intro b hb
      rw [uint32ToBytes] at hb
      simp only [List.mem_cons] at hb
      rcases hb with rfl | rfl | rfl | rfl | h
      · exact Nat.mod_lt _ (by norm_num)
      · exact Nat.mod_lt _ (by norm_num)
      · exact Nat.mod_lt _ (by norm_num)
      · exact Nat.mod_lt _ (by norm_num)
      · simp at h
    · rw [uint32ToBytes]
      simp only [List.foldl_cons, List.foldl_nil]
      have h24 : (2 : Nat) ^ 24 = 16777216 := by norm_num
      have h16 : (2 : Nat) ^ 16 = 65536 := by norm_num
      have h8 : (2 : Nat) ^ 8 = 256 := by norm_num
      have h32 : (2 : Nat) ^ 32 = 4294967296 := by norm_num
      rw [h24, h16, h8] at *
      rw [h32] at hvlt
      omega

/-- C4 witness: a two-item list with a skipped value and a uint32 value,
serialized to the claimed bytes. -/
theorem serializeMetadata_format_witness :
    serializeMetadata [⟨2, some [86, 87]⟩, ⟨5, some [9]⟩] =
      Except.ok [2, 2, 86, 87, 5, 1, 9, 0xff] ∧
    (uint32ToBytes 258).foldl (fun acc b => acc * 256 + b) 0 = 258 :=
  ⟨(serializeMetadata_format.1 [⟨2, some [86, 87]⟩, ⟨5, some [9]⟩]
      (by norm_num [List.chain'_cons])
      (by intro it hit
          simp only [List.mem_cons, List.not_mem_nil, or_false] at hit
          rcases hit with rfl | rfl <;> norm_num)
      (by intro it hit v hv
          simp only [List.mem_cons, List.not_mem_nil, or_false] at hit
          rcases hit with rfl | rfl <;> cases hv <;> norm_num)).trans rfl,
   ((serializeMetadata_format.2 258).2.2).trans (by decide)⟩

/-- C8 (amended): the advertisement local-name prefix is the letter S, the
first 16 characters of the lowercased hex SHA-1 digest of the VIN, then
the letter C: 18 characters in total, not 17. The digest hex of SHA-1 is
40 characters long. -/
theorem vinToLocalName_format (digestHex : List Char) (h : digestHex.length = 40) :
    vinToLocalName digestHex = 'S' :: ((digestHex.map Char.toLower).take 16 ++ ['C']) ∧
    (vinToLocalName digestHex).length = 18 := by
  refine ⟨rfl, ?_⟩
  simp [vinToLocalName, h]

/-- C8 counterexample: on a 40-character digest the prefix has 18
characters, contradicting the claimed length of exactly 17. -/
theorem vinToLocalName_length_18 :
    (vinToLocalName (List.replicate 40 'a')).length = 18 ∧
    ¬ (vinToLocalName (List.replicate 40 'a')).length = 17 := by
  constructor
  · simp [vinToLocalName]
  · simp [vinToLocalName]

/-- C8 witness: the amended claim applied to a concrete 40-character
digest. -/
theorem vinToLocalName_format_witness :
    (List.replicate 40 'b').length = 40 ∧
      (vinToLocalName (List.replicate 40 'b')).length = 18 :=
  ⟨by simp, (vinToLocalName_format (List.replicate 40 'b') (by simp)).2⟩

/-- C7: for a framed message of payload length L at most 1024 delivered as
any sequence of non-empty chunks within the 1000 ms gap timeout, the
transport emits exactly one message equal to the payload; and whenever the
buffered data starts with a 2-byte header decoding to a length above 1024,
the transport resets its buffer and emits nothing. -/
theorem transport_reassembly_and_oversize :
    (∀ (payload : Bytes) (deliveries : List (Bytes × Int)) (t0 : Int),
      payload.length ≤ 1024 →
      (deliveries.map Prod.fst).flatten = frameMessage payload →
      (∀ c ∈ deliveries.map Prod.fst, c ≠ []) →
      List.Chain (fun a b => b - a ≤ 1000) t0 (deliveries.map Prod.snd) →
      (runNotifications ⟨[], t0⟩ deliveries).2 = [payload]) ∧
    (∀ (s : TransportRxState) (chunk : Bytes) (now : Int) (b0 b1 : Nat) (rest : Bytes),
      chunk ≠ [] →
      ¬ (1000 : Int) < now - s.lastNotification →
      s.buffer ++ chunk = b0 :: b1 :: rest →
      1024 < (b0 <<< 8) ||| b1 →
      handleNotification s chunk now = (⟨[], now⟩, [])) := by
  constructor
  · intro payload deliveries t0 hL hcat hne hchain
    exact runNotifications_frame hL deliveries [] t0 (by simpa using hcat)
      (by simp [frameMessage]) hne hchain
  · intro s chunk now b0 b1 rest hchunk hgap hcat hover
    rw [handleNotification_step hchunk hgap, hcat, flush,
        if_pos (show DEFAULT_MAX_MESSAGE_SIZE < (b0 <<< 8) ||| b1 from hover)]

/-- C7 witness: the frame for payload [7, 8] delivered in three chunks one
millisecond apart yields exactly the payload; the hypotheses are checked
at the concrete input. -/
theorem transport_reassembly_witness :
    (runNotifications ⟨[], 0⟩ [([0], 1), ([2, 7], 2), ([8], 3)]).2 = [[7, 8]] :=
  transport_reassembly_and_oversize.1 [7, 8] [([0], 1), ([2, 7], 2), ([8], 3)] 0
    (by decide) (by decide) (by decide) (by norm_num [List.chain_cons])

/-- C1: performHandshake verifies HMAC-SHA256 under the derived
session-info key of the serialized metadata items SIGNATURE_TYPE=HMAC(6),
PERSONALIZATION=VIN, CHALLENGE=uuid concatenated with the sessionInfo
bytes, against the tag extracted from the response: on mismatch it raises
the authentication error and the session state is left exactly as it was
(unset stays unset); only on success is the state assigned. -/
theorem performHandshake_hmac_gate (env : HandshakeEnv) (vinBytes : Bytes)
    (message : HandshakeMessage) (st : Option DomainSessionState)
    (sib tag md : Bytes)
    (hsi : message.sessionInfo = some sib)
    (htag : message.sessionInfoTag = some tag)
    (hmd : serializeMetadata (handshakeMetadataItems vinBytes env.uuid) = Except.ok md) :
    (verifyHmacSha256 env.hmacSha256
        (env.deriveKeys (env.decodeSessionInfoBytes sib).publicKey).sessionInfoKey
        (md ++ sib) tag = false →
      performHandshake env vinBytes message st = (st, some "Session info authentication failed")) ∧
    (verifyHmacSha256 env.hmacSha256
        (env.deriveKeys (env.decodeSessionInfoBytes sib).publicKey).sessionInfoKey
        (md ++ sib) tag = true →
      performHandshake env vinBytes message st =
        (some { keys := env.deriveKeys (env.decodeSessionInfoBytes sib).publicKey
                counter := (env.decodeSessionInfoBytes sib).counter
                epoch := (env.decodeSessionInfoBytes sib).epoch
                vehiclePublicKey := (env.decodeSessionInfoBytes sib).publicKey
                clientPublicKey := env.clientPublicKey
                timeZeroMs := env.nowMs - ((env.decodeSessionInfoBytes sib).clockTime : Int) * 1000 },
         none)) := by
  unfold performHandshake
  rw [hsi]
  dsimp only
  rw [htag]
  dsimp only
  rw [hmd]
  dsimp only
  constructor
  · intro hv
    rw [if_neg (by simp [hv])]
  · intro hv
    rw [if_pos hv]

/-- Concrete handshake environment for the C1 witness: the external HMAC
returns a byte that differs from the response tag. -/
def hsWitnessEnv : HandshakeEnv :=
  { hmacSha256 := fun _ _ => [1]
    decodeSessionInfoBytes := fun _ => { counter := 0, epoch := [], clockTime := 0, publicKey := [] }
    deriveKeys := fun _ => { sharedSecret := [], aesKeyBytes := [], sessionInfoKey := [] }
    clientPublicKey := []
    uuid := [9]
    nowMs := 0 }

/-- C1 witness: on a concrete tampered response the handshake fails with
the authentication error and the session state stays unset. -/
theorem performHandshake_hmac_gate_witness :
    performHandshake hsWitnessEnv [86] ⟨some [1, 2], some [0]⟩ none =
      (none, some "Session info authentication failed") :=
  (performHandshake_hmac_gate hsWitnessEnv [86] ⟨some [1, 2], some [0]⟩ none [1, 2] [0]
      [0, 1, 6, 2, 1, 86, 6, 1, 9, 0xff] rfl rfl rfl).1 rfl

/-- C2 (amended): handleEncryptedResponse never modifies the session
state: in particular after a failed decryption the state is retained, and
the next ensure_session finds a session and performs no fresh handshake.
The claimed invalidation (dropping the state so the next get_state
re-handshakes) is not implemented. -/
theorem handleEncryptedResponse_retains_session (env : ResponseEnv) (vinBytes : Bytes)
    (domain : Nat) (st : Option DomainSessionState) (message : ResponseMessage)
    (requestId : Bytes) (s : DomainSessionState) :
    (handleEncryptedResponse env vinBytes domain st message requestId).1 = st ∧
    ensureSessionRunsHandshake
      (handleEncryptedResponse env vinBytes domain (some s) message requestId).1 = false := by
  have hfst : ∀ st2 : Option DomainSessionState,
      (handleEncryptedResponse env vinBytes domain st2 message requestId).1 = st2 := by
    intro st2
    unfold handleEncryptedResponse
    split
    · rfl
    · split
      · rfl
      · dsimp only
        split
        · rfl
        · rfl
  refine ⟨hfst st, ?_⟩
  rw [hfst (some s)]
  rfl

/-- Concrete session key material shared by the session counterexamples
and witnesses. -/
def cexKeys : TeslaSessionKeys := ⟨[], [], []⟩

/-- An established session with counter 0. -/
def cexSession : DomainSessionState := ⟨cexKeys, 0, [], [], [], 0⟩

/-- A response environment whose AES-GCM decryption always reports an
authentication failure. -/
def cexRespEnv : ResponseEnv :=
  ⟨fun m => m, fun _ _ _ _ => Except.error "AES-GCM authentication failed"⟩

/-- A decoded encrypted response with all signature fields present. -/
def cexRespMessage : ResponseMessage :=
  ⟨some ⟨some [], some 0, some []⟩, some [], some 3, some 2, none⟩

/-- C2 counterexample: after a failed decryption of a concrete response
the session state is still present and the next ensure_session performs no
handshake, contradicting the claimed invalidation. -/
theorem handleEncryptedResponse_no_invalidate_cex :
    (handleEncryptedResponse cexRespEnv [86] 3 (some cexSession) cexRespMessage
        (5 :: List.replicate 16 0)).2 = Except.error "AES-GCM authentication failed" ∧
    (handleEncryptedResponse cexRespEnv [86] 3 (some cexSession) cexRespMessage
        (5 :: List.replicate 16 0)).1 = some cexSession ∧
    ensureSessionRunsHandshake
      (handleEncryptedResponse cexRespEnv [86] 3 (some cexSession) cexRespMessage
        (5 :: List.replicate 16 0)).1 = false :=
  ⟨rfl, rfl, rfl⟩

/-- C3: the AAD passed to AES-GCM decryption of a response is the SHA-256
of the serialized metadata items, in this order: SIGNATURE_TYPE =
AES_GCM_RESPONSE (9), DOMAIN = fromDestination.domain with fallback to the
session domain, PERSONALIZATION = VIN, COUNTER as big-endian uint32, FLAGS
included unconditionally even when zero, REQUEST_HASH = the byte 0x05
(SIGNATURE_TYPE_AES_GCM_PERSONALIZED) followed by the 16-byte request tag,
and FAULT (0 when absent). -/
theorem handleEncryptedResponse_aad (env : ResponseEnv) (vinBytes : Bytes) (domain : Nat)
    (session : DomainSessionState) (message : ResponseMessage)
    (sd : ResponseSignatureData) (reqTag md : Bytes)
    (hsd : message.signatureData = some sd)
    (_hreq : reqTag.length = 16)
    (hdom : message.fromDestinationDomain.getD domain < 256)
    (hmd : serializeMetadata
        [⟨TAG_SIGNATURE_TYPE, some [SIGNATURE_TYPE_AES_GCM_RESPONSE]⟩,
         ⟨TAG_DOMAIN, some [message.fromDestinationDomain.getD domain]⟩,
         ⟨TAG_PERSONALIZATION, some vinBytes⟩,
         ⟨TAG_COUNTER, some (uint32ToBytes (sd.counter.getD 0 : Int))⟩,
         ⟨TAG_FLAGS, some (uint32ToBytes (message.flags.getD 0 : Int))⟩,
         ⟨TAG_REQUEST_HASH, some (SIGNATURE_TYPE_AES_GCM_PERSONALIZED :: reqTag)⟩,
         ⟨TAG_FAULT, some (uint32ToBytes (message.signedMessageFault.getD 0 : Int))⟩]
        = Except.ok md) :
    handleEncryptedResponse env vinBytes domain (some session) message
        (SIGNATURE_TYPE_AES_GCM_PERSONALIZED :: reqTag) =
      (some session,
       env.decryptAesGcm session.keys.aesKeyBytes (sd.nonce.getD [])
         (message.protobufMessageAsBytes.getD [] ++ sd.tag.getD [])
         (env.sha256 md)) := by
  unfold handleEncryptedResponse
  dsimp only
  rw [hsd]
  dsimp only
  rw [Nat.mod_eq_of_lt hdom, hmd]

/-- Response environment for the C3 witness: SHA-256 and decryption are
instantiated with functions that expose their AAD argument. -/
def aadWitnessEnv : ResponseEnv :=
  ⟨fun m => m, fun k n c a => Except.ok (k ++ n ++ c ++ a)⟩

/-- The serialized response metadata for the C3 witness inputs. -/
def cexAadBytes : Bytes :=
  [0, 1, 9, 1, 1, 3, 2, 1, 86, 5, 4, 0, 0, 0, 0, 7, 4, 0, 0, 0, 2, 8, 17, 5] ++
    List.replicate 16 0 ++ [9, 4, 0, 0, 0, 0, 255]

/-- C3 witness: on a concrete response the decryption receives exactly the
SHA-256 image of the serialized claim metadata. -/
theorem handleEncryptedResponse_aad_witness :
    handleEncryptedResponse aadWitnessEnv [86] 3 (some cexSession) cexRespMessage
        (SIGNATURE_TYPE_AES_GCM_PERSONALIZED :: List.replicate 16 0) =
      (some cexSession, Except.ok cexAadBytes) := by
  exact handleEncryptedResponse_aad aadWitnessEnv [86] 3 cexSession cexRespMessage
    ⟨some [], some 0, some []⟩ (List.replicate 16 0) cexAadBytes rfl rfl (by decide) rfl

/-- The command metadata always serializes when the VIN and epoch fit in
one length byte: its tags are ascending by construction and all other
values are one or four bytes. -/
theorem commandMetadataItems_ok (vinBytes : Bytes) (domain : Nat) (epoch : Bytes)
    (expires : Int) (counter : Nat) (flags : Nat) (hvin : vinBytes.length ≤ 255)
    (hepoch : epoch.length ≤ 255) :
    ∃ md, serializeMetadata (commandMetadataItems vinBytes domain epoch expires counter flags)
      = Except.ok md := by
  rw [serializeMetadata_ok_iff]
  constructor
  · by_cases hf : flags = 0 <;>
      norm_num [commandMetadataItems, hf, List.chain'_cons, TAG_SIGNATURE_TYPE, TAG_DOMAIN,
        TAG_PERSONALIZATION, TAG_EPOCH, TAG_EXPIRES_AT, TAG_COUNTER, TAG_FLAGS]
  · intro it hit v hv
    rw [commandMetadataItems] at hit
    rcases List.mem_append.mp hit with h | h
    · simp only [List.mem_cons, List.not_mem_nil, or_false] at h
      rcases h with rfl | rfl | rfl | rfl | rfl | rfl <;> dsimp only at hv <;> cases hv
      · norm_num
      · norm_num
      · exact hvin
      · exact hepoch
      · norm_num [uint32ToBytes]
      · norm_num [uint32ToBytes]
    · by_cases hf : flags ≠ 0
      · rw [if_pos hf] at h
        simp only [List.mem_cons, List.not_mem_nil, or_false] at h
        subst h
        dsimp only at hv
        cases hv
        norm_num [uint32ToBytes]
      · rw [if_neg hf] at h
        simp at h

/-- One successful sendEncryptedCommand increments the stored counter by
one and stamps exactly that value into the sent command. -/
theorem sendEncryptedCommand_step (env : CommandEnv) (vinBytes : Bytes) (domain : Nat)
    (flags : Nat) (s : DomainSessionState) (plaintext : Bytes)
    (hvin : vinBytes.length ≤ 255) (hepoch : s.epoch.length ≤ 255)
    (henc : ∀ k n p a, GCM_TAG_SIZE ≤ (env.encryptAesGcm k n p a).length) :
    (sendEncryptedCommand env vinBytes domain flags (some s) plaintext).1
        = some { s with counter := s.counter + 1 } ∧
    (sendEncryptedCommand env vinBytes domain flags (some s) plaintext).2.toOption.map
        SentCommand.counter = some (s.counter + 1) := by
  obtain ⟨md, hmd⟩ := commandMetadataItems_ok vinBytes domain s.epoch
    (defaultExpiry (vehicleTimeSeconds env.nowMs (some { s with counter := s.counter + 1 })))
    (s.counter + 1) flags hvin hepoch
  unfold sendEncryptedCommand
  dsimp only
  rw [hmd]
  dsimp only
  rw [if_neg (by have := henc s.keys.aesKeyBytes env.nonce plaintext (env.sha256 md); omega)]
  constructor
  · rfl
  · rfl

/-- C6 (amended): across N successful sendEncryptedCommand calls on a
session whose stored counter starts at c0, the counter values placed in
the command are exactly c0+1, ..., c0+N, each call incrementing by one
before sending. The handshake stores the vehicle-reported session-info
counter as c0, so the values are 1..N exactly when the vehicle reports
counter 0. -/
theorem runCommands_counters (env : CommandEnv) (vinBytes : Bytes) (domain : Nat)
    (flags : Nat) (plaintext : Bytes) (s : DomainSessionState) (N : Nat)
    (hvin : vinBytes.length ≤ 255) (hepoch : s.epoch.length ≤ 255)
    (henc : ∀ k n p a, GCM_TAG_SIZE ≤ (env.encryptAesGcm k n p a).length) :
    (runCommands env vinBytes domain flags plaintext (some s) N).1
        = some { s with counter := s.counter + N } ∧
    (runCommands env vinBytes domain flags plaintext (some s) N).2.map
        (fun r => r.toOption.map SentCommand.counter)
      = (List.range' (s.counter + 1) N).map some := by
  induction N generalizing s with
  | zero =>
    constructor
    · simp [runCommands]
    · simp [runCommands]
  | succ n ih =>
    have hstep := sendEncryptedCommand_step env vinBytes domain flags s plaintext hvin hepoch henc
    have ihs := ih { s with counter := s.counter + 1 } hepoch
    rw [runCommands]
    dsimp only
    constructor
    · rw [hstep.1, ihs.1]
      exact congrArg (fun c => some ({ s with counter := c } : DomainSessionState))
        (show s.counter + 1 + n = s.counter + (n + 1) by omega)
    · simp only [List.map_cons]
      rw [hstep.1, hstep.2, ihs.2]
      rfl

/-- Handshake environment for the C6 counterexample: the vehicle reports
session-info counter 5 and the HMAC verification succeeds. -/
def c6HsEnv : HandshakeEnv :=
  { hmacSha256 := fun _ _ => [0]
    decodeSessionInfoBytes := fun _ => { counter := 5, epoch := [], clockTime := 0, publicKey := [] }
    deriveKeys := fun _ => cexKeys
    clientPublicKey := []
    uuid := [9]
    nowMs := 0 }

/-- Command environment for the C6 counterexample and witness. -/
def c6CmdEnv : CommandEnv :=
  ⟨fun m => m, fun _ _ _ _ => List.replicate 16 0, [], 0⟩

/-- C6 counterexample: a successful handshake that stores the
vehicle-reported counter 5 makes the first command carry counter 6, not
1. -/
theorem counter_starts_at_vehicle_counter_cex :
    (performHandshake c6HsEnv [86] ⟨some [1], some [0]⟩ none).2 = none ∧
    ((sendEncryptedCommand c6CmdEnv [86] 3 2
        (performHandshake c6HsEnv [86] ⟨some [1], some [0]⟩ none).1 []).2.toOption.map
        SentCommand.counter) = some 6 ∧
    (6 : Nat) ≠ 1 :=
  ⟨rfl, rfl, by decide⟩

/-- C6 witness: two commands on a session with stored counter 0 carry
counters 1 and 2. -/
theorem runCommands_counters_witness :
    (runCommands c6CmdEnv [86] 3 2 [] (some cexSession) 2).2.map
        (fun r => r.toOption.map SentCommand.counter)
      = (List.range' (cexSession.counter + 1) 2).map some :=
  (runCommands_counters c6CmdEnv [86] 3 2 [] cexSession 2 (by decide) (by decide)
      (fun k n p a => by simp [c6CmdEnv, GCM_TAG_SIZE])).2

end TeslaBle
